import Mathlib

/-!
Verification development for the workflow execution engine of the n8nAI
repository: the graph traversal in `executeWorkflow` / `executeNodeChain`
(src/app/page.tsx), the node dispatcher and handlers of `WorkflowExecutor`
together with the template resolver (src/lib/types.ts), the switch-case
parser (src/lib/node-helpers.ts) and the capped execution history
(src/lib/execution-history.ts).

JavaScript runtime values are modelled by `JsValue` (numbers restricted to
integers: every number the engine itself manipulates is an integer index or
a millisecond count; floats, NaN and wall-clock values are outside the
model).  The JavaScript `undefined` is modelled by `Option.none` at every
interface where the source distinguishes it from `null`.
-/

/-- A JavaScript/JSON value as handled by the engine. -/
inductive JsValue where
  | null
  | bool (b : Bool)
  | num (n : Int)
  | str (s : String)
  | arr (elems : List JsValue)
  | obj (fields : List (String × JsValue))

/-- JavaScript truthiness of a value. -/
def jsTruthy : JsValue → Bool
  | .null => false
  | .bool b => b
  | .num n => n != 0
  | .str s => !s.data.isEmpty
  | .arr _ => true
  | .obj _ => true

/-- Truthiness of a possibly-`undefined` value (`undefined` is falsy). -/
def jsTruthyOpt : Option JsValue → Bool
  | none => false
  | some v => jsTruthy v

/-- Key lookup on an object's field list (JavaScript objects have unique
keys; lookup takes the first binding). -/
def jsLookup (fields : List (String × JsValue)) (k : String) : Option JsValue :=
  fields.lookup k

/-- The JavaScript whitespace test used for `trim` and `Number` coercion
(restricted to the ASCII whitespace the engine can meet). -/
def isJsSpace (c : Char) : Bool := c.isWhitespace

/-- JavaScript `String.prototype.trim`. -/
def jsTrim (s : String) : String :=
  String.mk (((s.data.dropWhile isJsSpace).reverse.dropWhile isJsSpace).reverse)

/-- String prefix test (`String.prototype.startsWith`). -/
def isPrefixStr (p s : String) : Bool := p.data.isPrefixOf s.data

/-- JavaScript `String.prototype.slice(n)` for a character offset. -/
def strDrop (s : String) (n : Nat) : String := String.mk (s.data.drop n)

/-- `String.prototype.split` with a one-character separator. -/
def splitOnCharAux (sep : Char) : List Char → List Char → List String
  | [], acc => [String.mk acc.reverse]
  | c :: cs, acc =>
    if c = sep then String.mk acc.reverse :: splitOnCharAux sep cs []
    else splitOnCharAux sep cs (c :: acc)

/-- `String.prototype.split` with a one-character separator. -/
def strSplitOn (sep : Char) (s : String) : List String :=
  splitOnCharAux sep s.data []

/-- `Array.prototype.join(".")` as used for the tail of a template path. -/
def joinDot : List String → String
  | [] => ""
  | [s] => s
  | s :: rest => s ++ "." ++ joinDot rest

/-- Decimal digits to a natural number. -/
def digitsToNat : List Char → Nat → Nat
  | [], acc => acc
  | c :: cs, acc => digitsToNat cs (acc * 10 + (c.toNat - '0'.toNat))

/-- Hexadecimal digits to a natural number. -/
def hexDigitsToNat : List Char → Nat → Nat
  | [], acc => acc
  | c :: cs, acc =>
    let d :=
      if c.isDigit then c.toNat - '0'.toNat
      else if 'a' ≤ c ∧ c ≤ 'f' then c.toNat - 'a'.toNat + 10
      else c.toNat - 'A'.toNat + 10
  hexDigitsToNat cs (acc * 16 + d)

/-- Test for a hexadecimal digit. -/
def isHexDigit (c : Char) : Bool :=
  c.isDigit || ('a' ≤ c && c ≤ 'f') || ('A' ≤ c && c ≤ 'F')

/-- `Number(key)` restricted to the integer results relevant for array
indexing (`accessValue` rejects non-integer results).  Modelled: whitespace
only coerces to `0`, optionally signed decimal literals, and `0x` hex
literals; scientific notation is outside the modelled key grammar (path
segments never contain a dot, so decimal fractions cannot occur). -/
def jsNumberInt? (key : String) : Option Int :=
  let t := ((key.data.dropWhile isJsSpace).reverse.dropWhile isJsSpace).reverse
  match t with
  | [] => some 0
  | '-' :: ds =>
    if !ds.isEmpty && ds.all Char.isDigit then some (-(digitsToNat ds 0 : Int)) else none
  | '+' :: ds =>
    if !ds.isEmpty && ds.all Char.isDigit then some (digitsToNat ds 0 : Int) else none
  | '0' :: 'x' :: hs =>
    if !hs.isEmpty && hs.all isHexDigit then some (hexDigitsToNat hs 0 : Int) else none
  | '0' :: 'X' :: hs =>
    if !hs.isEmpty && hs.all isHexDigit then some (hexDigitsToNat hs 0 : Int) else none
  | ds =>
    if ds.all Char.isDigit then some (digitsToNat ds 0 : Int) else none

/-- JSON string escaping used by `JSON.stringify`. -/
def jsonEscapeChar (c : Char) : String :=
  if c = '"' then "\\\""
  else if c = '\\' then "\\\\"
  else if c = '\n' then "\\n"
  else if c = '\r' then "\\r"
  else if c = '\t' then "\\t"
  else if c.toNat = 8 then "\\b"
  else if c.toNat = 12 then "\\f"
  else if c.toNat < 32 then
    "\\u00" ++ String.mk [Nat.digitChar (c.toNat / 16), Nat.digitChar (c.toNat % 16)]
  else String.mk [c]

/-- JSON string escaping used by `JSON.stringify`. -/
def jsonEscape (cs : List Char) : String :=
  String.join (cs.map jsonEscapeChar)

mutual

/-- `JSON.stringify` on a value (compact form, insertion order). -/
def jsonStringify : JsValue → String
  | .null => "null"
  | .bool true => "true"
  | .bool false => "false"
  | .num n => toString n
  | .str s => "\"" ++ jsonEscape s.data ++ "\""
  | .arr xs => "[" ++ jsonStringifyArr xs ++ "]"
  | .obj fs => "\x7b" ++ jsonStringifyObj fs ++ "\x7d"

/-- Comma-joined `JSON.stringify` of array elements. -/
def jsonStringifyArr : List JsValue → String
  | [] => ""
  | [x] => jsonStringify x
  | x :: y :: rest => jsonStringify x ++ "," ++ jsonStringifyArr (y :: rest)

/-- Comma-joined `JSON.stringify` of object fields. -/
def jsonStringifyObj : List (String × JsValue) → String
  | [] => ""
  | [(k, v)] => "\"" ++ jsonEscape k.data ++ "\":" ++ jsonStringify v
  | (k, v) :: p :: rest =>
    "\"" ++ jsonEscape k.data ++ "\":" ++ jsonStringify v ++ "," ++ jsonStringifyObj (p :: rest)

end

mutual

/-- JavaScript `String(value)` coercion. -/
def jsStringCoerce : JsValue → String
  | .null => "null"
  | .bool true => "true"
  | .bool false => "false"
  | .num n => toString n
  | .str s => s
  | .arr xs => jsArrJoin xs
  | .obj _ => "[object Object]"

/-- `Array.prototype.toString`: elements coerced and joined with commas,
`null` elements rendering as the empty string. -/
def jsArrJoin : List JsValue → String
  | [] => ""
  | [.null] => ""
  | [x] => jsStringCoerce x
  | .null :: y :: rest => "," ++ jsArrJoin (y :: rest)
  | x :: y :: rest => jsStringCoerce x ++ "," ++ jsArrJoin (y :: rest)

end

/-- JavaScript `String(value)` on a possibly-`undefined` value. -/
def jsStringCoerceOpt : Option JsValue → String
  | none => "undefined"
  | some v => jsStringCoerce v

/-- `isRecord` from src/lib/types.ts: `typeof value === "object" && value
!== null` (arrays are objects in JavaScript). -/
def isRecordJs : JsValue → Bool
  | .arr _ => true
  | .obj _ => true
  | _ => false

/-- `stringifyValue` from src/lib/types.ts: records render as JSON text,
everything else through `String` coercion. -/
def stringifyValue : Option JsValue → String
  | none => "undefined"
  | some v => if isRecordJs v then jsonStringify v else jsStringCoerce v

/-- `accessValue` from src/lib/types.ts: arrays are indexed when the key
coerces to an integer, objects by key lookup, anything else is
`undefined`. -/
def accessValue : JsValue → String → Option JsValue
  | .arr xs, key =>
    match jsNumberInt? key with
    | some i => if 0 ≤ i then xs[i.toNat]? else none
    | none => none
  | .obj fs, key => jsLookup fs key
  | _, _ => none

/-- Character class `\w` of the bracket-normalisation regex. -/
def jsWordChar (c : Char) : Bool := c.isAlphanum || c = '_'

/-- The global replace of `[(\w+)]` by `.$1` in `resolvePath`
(src/lib/types.ts): a bracket segment of word characters is rewritten to a
dot segment, anything else is copied verbatim.  The scan consumes at least
one character per step, so it is driven by a character-count fuel to keep
it structurally recursive. -/
def normalizeBracketsF : Nat → List Char → List Char
  | 0, cs => cs
  | _, [] => []
  | fuel + 1, '[' :: rest =>
    match rest.takeWhile jsWordChar, rest.dropWhile jsWordChar with
    | c :: cap, ']' :: tail => '.' :: (c :: cap) ++ normalizeBracketsF fuel tail
    | _, _ => '[' :: normalizeBracketsF fuel rest
  | fuel + 1, c :: rest => c :: normalizeBracketsF fuel rest

/-- The global replace of `[(\w+)]` by `.$1` in `resolvePath`. -/
def normalizeBrackets (cs : List Char) : List Char :=
  normalizeBracketsF cs.length cs

/-- The non-global replace of a single leading `.` by the empty string in
`resolvePath`. -/
def dropLeadingDot : List Char → List Char
  | '.' :: cs => cs
  | cs => cs

/-- The sanitised, dot-split, empty-free segment list of a template path
(`resolvePath`, src/lib/types.ts). -/
def pathSegments (path : String) : List String :=
  (splitOnCharAux '.' (dropLeadingDot (normalizeBrackets path.data)) []).filter
    (fun s => !s.data.isEmpty)

/-- `resolvePath` from src/lib/types.ts: walk the source value one segment
at a time; a `null` or `undefined` intermediate value makes the whole path
`undefined`. -/
def resolvePath (source : Option JsValue) (path : String) : Option JsValue :=
  if path = "" then source
  else
    (pathSegments path).foldl
      (fun acc seg =>
        match acc with
        | none => none
        | some .null => none
        | some v => accessValue v seg)
      source

/-- The run-time data a template is resolved against (`TemplateContext`,
src/lib/types.ts).  Outputs of earlier nodes may be `undefined`, hence
`Option` values in the map. -/
structure TemplateContext where
  input : Option JsValue
  previousNodes : List (String × Option JsValue)

/-- `previousNodes[nodeId]`: `undefined` both for a missing key and for a
key bound to `undefined`. -/
def jsGetPrev (m : List (String × Option JsValue)) (k : String) : Option JsValue :=
  match m.lookup k with
  | some (some v) => some v
  | _ => none

/-- Rendering of one resolved path value inside `replaceTemplateVariables`:
`undefined` and `null` keep the original token text, everything else is
stringified. -/
def renderResolved (v : Option JsValue) (whole : String) : String :=
  match v with
  | none => whole
  | some .null => whole
  | some v => stringifyValue (some v)

/-- The replacement callback of `replaceTemplateVariables`
(src/lib/types.ts lines 116-143): resolves one captured path, falling back
to the whole token text when the reference is unresolved. -/
def resolveToken (ctx : TemplateContext) (rawPath whole : String) : String :=
  let t := jsTrim rawPath
  if t = "" then whole
  else if t = "input" then stringifyValue ctx.input
  else if isPrefixStr "input." t then
    renderResolved (resolvePath ctx.input (strDrop t 6)) whole
  else
    match strSplitOn '.' t with
    | [] => whole
    | nid :: rest =>
      if nid = "" then whole
      else
        match jsGetPrev ctx.previousNodes nid with
        | none => whole
        | some out =>
          if rest.isEmpty then stringifyValue (some out)
          else renderResolved (resolvePath (some out) (joinDot rest)) whole

/-- The scan of `text.replace(re, fn)` for the token regex of
`replaceTemplateVariables`: a match is `\x7b\x7b`, a maximal non-empty run
of non-`\x7d` characters, then `\x7d\x7d`; on a failed match the scan
advances one character. -/
def rtvGoF (ctx : TemplateContext) : Nat → List Char → List Char
  | 0, cs => cs
  | _, [] => []
  | fuel + 1, '{' :: '{' :: rest =>
    match rest.takeWhile (fun c => c ≠ '}'), rest.dropWhile (fun c => c ≠ '}') with
    | c :: cap, '}' :: '}' :: tail =>
      (resolveToken ctx (String.mk (c :: cap))
        (String.mk ('{' :: '{' :: (c :: cap) ++ ['}', '}']))).data ++ rtvGoF ctx fuel tail
    | _, _ => '{' :: rtvGoF ctx fuel ('{' :: rest)
  | fuel + 1, c :: rest => c :: rtvGoF ctx fuel rest

/-- The token-replacement scan of `replaceTemplateVariables`; every step
consumes at least one character, so the character count is enough fuel. -/
def rtvGo (ctx : TemplateContext) (cs : List Char) : List Char :=
  rtvGoF ctx cs.length cs

/-- `replaceTemplateVariables` from src/lib/types.ts: non-string inputs
coerce (nullish to the empty string), strings have every `\x7b\x7b path
\x7d\x7d` token replaced through `resolveToken`. -/
def replaceTemplateVariables (rawText : Option JsValue) (ctx : TemplateContext) : String :=
  match rawText with
  | some (.str s) => String.mk (rtvGo ctx s.data)
  | none => ""
  | some .null => ""
  | some v => jsStringCoerce v

/-- JavaScript `parseInt(s, 10)`: leading whitespace skipped, optional
sign, maximal leading run of decimal digits; `none` models NaN. -/
def jsParseInt10 (s : String) : Option Int :=
  let t := s.data.dropWhile isJsSpace
  let signedDigits : Bool → List Char → Option Int := fun neg cs =>
    let ds := cs.takeWhile Char.isDigit
    if ds.isEmpty then none
    else if neg then some (-(digitsToNat ds 0 : Int))
    else some (digitsToNat ds 0 : Int)
  match t with
  | '-' :: cs => signedDigits true cs
  | '+' :: cs => signedDigits false cs
  | cs => signedDigits false cs

/-- A node's configuration record (`config: Record<string, any>`; a node
without a config runs with the empty record, mirroring
`node.data.config || \x7b\x7d`). -/
def Config : Type := List (String × JsValue)

/-- The shared map of previously produced node outputs
(`previousNodes` / `nodeOutputs`); a value may be `undefined`. -/
def PrevMap : Type := List (String × Option JsValue)

/-- `NodeExecutionContext` from src/lib/types.ts. -/
structure NodeExecutionContext where
  nodeId : String
  input : Option JsValue
  config : Config
  previousNodes : PrevMap

/-- `NodeExecutionResult` from src/lib/types.ts. -/
structure NodeExecutionResult where
  success : Bool
  output : Option JsValue
  error : Option String

/-- Node categories of the node-type registry (spec section 6). -/
inductive Category where
  | trigger
  | ai
  | action
  | logic
deriving DecidableEq

/-- The node-type registry is an external collaborator (spec section 6):
the dispatcher only reads the category of `config.type`. -/
def Registry : Type := String → Option Category

/-- Modelled from the spec: the concrete node-type registry
(src/lib/node-definitions.ts is not part of the sources; spec sections 4.2
and 6 list the types of each category, including the trigger types named in
src/lib/types.ts). -/
def specNodeCategory : Registry := fun t =>
  if t = "webhook" ∨ t = "schedule" then some .trigger
  else if t = "aiTextGenerator" ∨ t = "aiAnalyzer" ∨ t = "aiChatbot" ∨ t = "aiDataExtractor" then
    some .ai
  else if t = "httpRequest" ∨ t = "dataTransform" ∨ t = "sendEmail" then some .action
  else if t = "ifElse" ∨ t = "switch" ∨ t = "delay" then some .logic
  else none

/-- The effectful collaborators a handler can call (spec section 6): the AI
execution service, the HTTP proxy, the code-evaluation collaborator used by
dataTransform / ifElse, and the wall clock read by
`new Date().toISOString()`.  A collaborator returning `Except.error m`
models a thrown or rejected call whose surfaced message is `m`. -/
structure Env where
  now : String
  aiExec : Option JsValue → Config → Option JsValue → PrevMap → Except String JsValue
  httpProxy : String → JsValue → String → Option String → Except String JsValue
  evalFun : String → Option JsValue → PrevMap → Except String JsValue

/-- `config.type` interpolated into an error message, with the JavaScript
string coercion applied by the template literal. -/
def configTypeStr (config : Config) : String :=
  jsStringCoerceOpt (jsLookup config "type")

/-- `parseSwitchCases` from src/lib/node-helpers.ts: newline-split config
text, trimmed, empty lines removed, duplicates removed keeping the first
occurrence (the JavaScript filter keeps entry `i` iff it is non-empty and
`all.indexOf(value) === i`). -/
def parseSwitchCases (config : Config) : List String :=
  let rawCases :=
    match jsLookup config "cases" with
    | some (.str s) => s
    | _ => ""
  let all := (strSplitOn '\n' rawCases).map jsTrim
  (all.enum.filter (fun p => !p.2.data.isEmpty && all.indexOf p.2 == p.1)).map Prod.snd

/-- Field present only when its value is defined (a JavaScript object
literal field holding `undefined` is observationally absent for every
operation the engine performs on outputs). -/
def optField (k : String) : Option JsValue → List (String × JsValue)
  | none => []
  | some v => [(k, v)]

/-- `executeTriggerNode` (src/lib/types.ts): passthrough on a truthy input,
else the synthesized `\x7btriggeredAt, config\x7d` payload. -/
def executeTriggerNode (env : Env) (ctx : NodeExecutionContext) : NodeExecutionResult :=
  { success := true
    output :=
      if jsTruthyOpt ctx.input then ctx.input
      else some (.obj [("triggeredAt", .str env.now), ("config", .obj ctx.config)])
    error := none }

/-- `executeAINodeType` (src/lib/types.ts): delegates to the AI execution
collaborator; a thrown error is caught at the dispatcher boundary and its
message becomes the node's error. -/
def executeAINodeType (env : Env) (ctx : NodeExecutionContext) : NodeExecutionResult :=
  match env.aiExec (jsLookup ctx.config "type") ctx.config ctx.input ctx.previousNodes with
  | .ok v => { success := true, output := some v, error := none }
  | .error m => { success := false, output := none, error := some m }

/-- `executeHttpRequest` (src/lib/types.ts): template-resolves url,
headers and body, requires a non-empty resolved url, sends no body on GET,
and reports collaborator failures as the node's error. -/
def executeHttpRequest (env : Env) (ctx : NodeExecutionContext) : NodeExecutionResult :=
  let tctx : TemplateContext := ⟨ctx.input, ctx.previousNodes⟩
  let methodV :=
    match jsLookup ctx.config "method" with
    | none => JsValue.str "GET"
    | some v => v
  let processedUrl := replaceTemplateVariables (jsLookup ctx.config "url") tctx
  let processedHeaders :=
    replaceTemplateVariables
      (some ((jsLookup ctx.config "headers").getD (.str "\x7b\x7d"))) tctx
  let processedBody :=
    replaceTemplateVariables
      (some ((jsLookup ctx.config "body").getD (.str "\x7b\x7d"))) tctx
  if processedUrl = "" then
    { success := false, output := none, error := some "URL is required" }
  else
    match env.httpProxy processedUrl methodV processedHeaders
        (match methodV with
         | .str "GET" => none
         | _ => some processedBody) with
    | .ok v => { success := true, output := some v, error := none }
    | .error m => { success := false, output := none, error := some m }

/-- `executeDataTransform` (src/lib/types.ts): runs the user code through
the code-evaluation collaborator; a thrown error becomes the node's
error. -/
def executeDataTransform (env : Env) (ctx : NodeExecutionContext) : NodeExecutionResult :=
  match env.evalFun (jsStringCoerceOpt (jsLookup ctx.config "code")) ctx.input ctx.previousNodes with
  | .ok v => { success := true, output := some v, error := none }
  | .error m => { success := false, output := none, error := some m }

/-- `executeSendEmail` (src/lib/types.ts): template-resolves to, subject
and body and returns the simulated-send acknowledgment. -/
def executeSendEmail (env : Env) (ctx : NodeExecutionContext) : NodeExecutionResult :=
  let tctx : TemplateContext := ⟨ctx.input, ctx.previousNodes⟩
  let pick := fun (k : String) =>
    match jsLookup ctx.config k with
    | none => JsValue.str ""
    | some v => v
  { success := true
    output := some (.obj
      [("sent", .bool true),
       ("to", .str (replaceTemplateVariables (some (pick "to")) tctx)),
       ("subject", .str (replaceTemplateVariables (some (pick "subject")) tctx)),
       ("body", .str (replaceTemplateVariables (some (pick "body")) tctx)),
       ("sentAt", .str env.now),
       ("message", .str "✉️ Email sent successfully (simulated)")])
    error := none }

/-- `executeIfElse` (src/lib/types.ts): only the `"javascript"` operator
evaluates the condition; the output carries `branch: "true" | "false"`. -/
def executeIfElse (env : Env) (ctx : NodeExecutionContext) : NodeExecutionResult :=
  let isJsOperator :=
    match jsLookup ctx.config "operator" with
    | some (.str "javascript") => true
    | _ => false
  if isJsOperator then
    match env.evalFun ("return " ++ jsStringCoerceOpt (jsLookup ctx.config "condition"))
        ctx.input ctx.previousNodes with
    | .ok v =>
      { success := true
        output := some (.obj
          (("condition", .bool (jsTruthy v)) ::
           ("branch", .str (if jsTruthy v then "true" else "false")) ::
           optField "input" ctx.input))
        error := none }
    | .error m => { success := false, output := none, error := some m }
  else
    { success := true
      output := some (.obj
        (("condition", .bool false) :: ("branch", .str "false") :: optField "input" ctx.input))
      error := none }

/-- `executeSwitch` (src/lib/types.ts): resolves the configured property
path (rooted at the input unless it starts with a previously executed node
id), string-compares it with the parsed case list, and emits
`branch: "case_<index>"` on the first match, else `branch: "default"`. -/
def executeSwitch (config : Config) (ctx : NodeExecutionContext) : NodeExecutionResult :=
  let propertyPath :=
    match jsLookup config "property" with
    | some (.str s) => if 0 < (jsTrim s).data.length then jsTrim s else "input"
    | _ => "input"
  let cases := parseSwitchCases config
  let propertyValue :=
    if propertyPath = "" ∨ propertyPath = "input" then ctx.input
    else if isPrefixStr "input." propertyPath then
      resolvePath ctx.input (strDrop propertyPath 6)
    else
      match strSplitOn '.' propertyPath with
      | [] => resolvePath ctx.input propertyPath
      | nid :: rest =>
        if nid ≠ "" then
          match jsGetPrev ctx.previousNodes nid with
          | some base =>
            if rest.isEmpty then some base else resolvePath (some base) (joinDot rest)
          | none => resolvePath ctx.input propertyPath
        else resolvePath ctx.input propertyPath
  let stringValue : Option String :=
    match propertyValue with
    | none => none
    | some .null => none
    | some v => some (jsStringCoerce v)
  let matchedIndex : Option Nat :=
    match stringValue with
    | none => none
    | some sv => cases.findIdx? (fun c => c == sv)
  { success := true
    output := some (.obj
      (("branch", .str (match matchedIndex with
                        | some i => "case_" ++ toString i
                        | none => "default")) ::
       ("matchedCase", match matchedIndex with
                       | some i => .str (cases.getD i "")
                       | none => .null) ::
       (optField "value" propertyValue ++
        [("cases", .arr (cases.map JsValue.str))] ++
        optField "input" ctx.input)))
    error := none }

/-- `executeDelay` (src/lib/types.ts): `parseInt` of the duration, scaled
by 1000 when the unit is `"seconds"`; the timer itself is outside the
model.  A NaN duration is not an integer and is rendered as `null` in the
output (observationally close: both are falsy and JSON-render as null). -/
def executeDelay (ctx : NodeExecutionContext) : NodeExecutionResult :=
  let parsed := jsParseInt10 (jsStringCoerceOpt (jsLookup ctx.config "duration"))
  let isSeconds :=
    match jsLookup ctx.config "unit" with
    | some (.str "seconds") => true
    | _ => false
  let ms : Option Int := parsed.map (fun n => if isSeconds then n * 1000 else n)
  { success := true
    output := some (.obj
      (("delayed", match ms with
                   | some n => .num n
                   | none => .null) :: optField "input" ctx.input))
    error := none }

/-- `executeActionNode` (src/lib/types.ts): sub-dispatch on `config.type`
within the action category. -/
def executeActionNode (env : Env) (ctx : NodeExecutionContext) : NodeExecutionResult :=
  match jsLookup ctx.config "type" with
  | some (.str "httpRequest") => executeHttpRequest env ctx
  | some (.str "dataTransform") => executeDataTransform env ctx
  | some (.str "sendEmail") => executeSendEmail env ctx
  | _ =>
    { success := false, output := none
      error := some ("Unknown action node type: " ++ configTypeStr ctx.config) }

/-- `executeLogicNode` (src/lib/types.ts): sub-dispatch on `config.type`
within the logic category. -/
def executeLogicNode (env : Env) (ctx : NodeExecutionContext) : NodeExecutionResult :=
  match jsLookup ctx.config "type" with
  | some (.str "ifElse") => executeIfElse env ctx
  | some (.str "switch") => executeSwitch ctx.config ctx
  | some (.str "delay") => executeDelay ctx
  | _ =>
    { success := false, output := none
      error := some ("Unknown logic node type: " ++ configTypeStr ctx.config) }

/-- `WorkflowExecutor.executeNode` (src/lib/types.ts): registry lookup on
`config.type`, dispatch by category; unknown types produce a typed failure
and every collaborator exception surfaces as
`\x7bsuccess: false, error\x7d`. -/
def executeNode (reg : Registry) (env : Env) (ctx : NodeExecutionContext) : NodeExecutionResult :=
  match reg (configTypeStr ctx.config) with
  | none =>
    { success := false, output := none
      error := some ("Unknown node type: " ++ configTypeStr ctx.config) }
  | some .trigger => executeTriggerNode env ctx
  | some .ai => executeAINodeType env ctx
  | some .action => executeActionNode env ctx
  | some .logic => executeLogicNode env ctx

/-- One node of the canvas graph as the traversal reads it:
`\x7bid, data.label, data.config\x7d` (src/app/page.tsx). -/
structure NodeRec where
  id : String
  label : String
  config : Config

/-- One edge of the graph; `branch` is `edge.data?.branch`, the branch tag
the edge was created with (`undefined` for unconditional edges). -/
structure EdgeE where
  id : String
  source : String
  target : String
  branch : Option String
deriving DecidableEq

/-- `(result.output as any)?.branch` (src/app/page.tsx line 440). -/
def branchField (output : Option JsValue) : Option JsValue :=
  match output with
  | some (.obj fs) => jsLookup fs "branch"
  | _ => none

/-- Truthiness of the optional `branch` field of an output. -/
def branchTruthy (output : Option JsValue) : Bool :=
  match branchField output with
  | some b => jsTruthy b
  | none => false

/-- JavaScript strict equality `edge.data?.branch === branch` between an
edge tag (a string or `undefined`) and the output's branch value: it can
only hold between two strings. -/
def edgeTagEq (b : JsValue) (e : EdgeE) : Bool :=
  match b, e.branch with
  | .str s, some t => t == s
  | _, _ => false

/-- JavaScript falsiness `!edge.data?.branch` of an edge tag: `undefined`
or the empty string. -/
def edgeTagFalsy (e : EdgeE) : Bool :=
  match e.branch with
  | none => true
  | some t => t.data.isEmpty

/-- The branch-selection block of `executeNodeChain` (src/app/page.tsx
lines 439-464): with a truthy `branch` output field and at least one
outgoing edge, prefer exactly-matching tags, then `"default"` tags, then
untagged (falsy-tagged) edges; otherwise traverse every outgoing edge. -/
def edgesToTraverse (output : Option JsValue) (connected : List EdgeE) : List EdgeE :=
  match branchField output with
  | some b =>
    if jsTruthy b && !connected.isEmpty then
      let branchMatches := connected.filter (edgeTagEq b)
      if !branchMatches.isEmpty then branchMatches
      else
        let defaultEdges := connected.filter (fun e => e.branch == some "default")
        if !defaultEdges.isEmpty then defaultEdges
        else connected.filter edgeTagFalsy
    else connected
  | none => connected

/-- Per-node statuses of `ExecutionNodeResult`
(src/lib/execution-history.ts; the engine itself only emits the first
two). -/
inductive NodeStatus where
  | success
  | error
  | skipped
deriving DecidableEq

/-- `ExecutionNodeResult` from src/lib/execution-history.ts.  The
wall-clock `duration` field is environmental and outside the model. -/
structure ExecutionNodeResult where
  nodeId : String
  nodeName : String
  status : NodeStatus
  output : Option JsValue
  error : Option String

/-- Run statuses of `ExecutionLog` (src/lib/execution-history.ts; a
completed run is `success` or `error`). -/
inductive RunStatus where
  | success
  | error
  | running
deriving DecidableEq

/-- `ExecutionLog` from src/lib/execution-history.ts.  The wall-clock
fields `id`, `timestamp` and `duration` are environmental and outside the
model. -/
structure ExecutionLog where
  status : RunStatus
  nodesExecuted : Nat
  totalNodes : Nat
  results : List ExecutionNodeResult
  errorMessage : Option String

/-- JavaScript object key assignment `m[k] = v`: replace the existing
binding or append a fresh one. -/
def jsSetKey (m : PrevMap) (k : String) (v : Option JsValue) : PrevMap :=
  match m with
  | [] => [(k, v)]
  | (k2, v2) :: rest => if k2 == k then (k2, v) :: rest else (k2, v2) :: jsSetKey rest k v

/-- JavaScript `a || b` on an optional string: the default applies to
`undefined` and to the empty string. -/
def jsOrStr (v : Option String) (d : String) : String :=
  match v with
  | some s => if s.data.isEmpty then d else s
  | none => d

/-- The mutable run-scoped state of `executeWorkflow` (src/app/page.tsx
lines 394-398): the visited set (in insertion order), the shared output
map, the per-node result list, and the error flag with its last message. -/
structure RunState where
  executed : List String
  outputs : PrevMap
  results : List ExecutionNodeResult
  hasError : Bool
  errorMessage : String

/-- The state every run starts from. -/
def initState : RunState :=
  { executed := [], outputs := [], results := [], hasError := false, errorMessage := "" }

/-- The executor a run dispatches each node to
(`executor.executeNode(context)`); the traversal theorems hold for an
arbitrary executor, in particular for `executeNode reg env`. -/
def ExecFn : Type := NodeExecutionContext → NodeExecutionResult

/-- `executeNodeChain` (src/app/page.tsx lines 400-504): skip a visited or
unknown node; otherwise mark it visited, dispatch it, and on success record
the output and recurse depth-first into the selected outgoing edges, on
failure record the error and stop this branch.  The JavaScript recursion
terminates because the visited set grows; here it is driven by a fuel that
`executeWorkflow` sets high enough (the recursion depth is bounded by the
number of distinct markable nodes plus one). -/
def executeNodeChain (nodes : List NodeRec) (edges : List EdgeE) (exec : ExecFn) :
    Nat → String → Option JsValue → RunState → RunState
  | 0, _, _, st => st
  | fuel + 1, nodeId, input, st =>
    if st.executed.contains nodeId then st
    else
      match nodes.find? (fun n => n.id == nodeId) with
      | none => st
      | some node =>
        let r := exec
          { nodeId := node.id, input := input, config := node.config
            previousNodes := st.outputs }
        if r.success then
          List.foldl
            (fun s e => executeNodeChain nodes edges exec fuel e.target r.output s)
            { st with
                executed := st.executed ++ [nodeId]
                outputs := jsSetKey st.outputs nodeId r.output
                results := st.results ++
                  [{ nodeId := node.id, nodeName := node.label
                     status := NodeStatus.success, output := r.output, error := none }] }
            (edgesToTraverse r.output (edges.filter (fun e => e.source == nodeId)))
        else
          { st with
              executed := st.executed ++ [nodeId]
              results := st.results ++
                [{ nodeId := node.id, nodeName := node.label
                   status := NodeStatus.error, output := none, error := r.error }]
              hasError := true
              errorMessage := jsOrStr r.error "Unknown error" }

/-- The outcome of one user-initiated run: the two fail-fast alerts
(`"Add some nodes to the canvas first!"`, `"Add a trigger node to start
the workflow!"`) or a completed run with its recorded `ExecutionLog`. -/
inductive RunOutcome where
  | noNodes
  | noTrigger
  | completed (log : ExecutionLog)

/-- The `ExecutionLog` assembled at the end of `executeWorkflow`
(src/app/page.tsx lines 513-522): overall status `error` exactly when the
error flag was raised, the visited count, the total node count, the
per-node entries in completion order, and the last error message when
any. -/
def assembleLog (totalNodes : Nat) (final : RunState) : ExecutionLog :=
  { status := if final.hasError then .error else .success
    nodesExecuted := final.executed.length
    totalNodes := totalNodes
    results := final.results
    errorMessage := if final.hasError then some final.errorMessage else none }

/-- `executeWorkflow` (src/app/page.tsx lines 367-525): fail fast on an
empty canvas, select every node without an incoming edge as a trigger
point, fail fast when there is none, run the chain from every trigger point
over one shared state, then assemble the `ExecutionLog`. -/
def executeWorkflow (nodes : List NodeRec) (edges : List EdgeE) (exec : ExecFn) : RunOutcome :=
  if nodes.isEmpty then .noNodes
  else if (nodes.filter (fun n => !(edges.any (fun e => e.target == n.id)))).isEmpty then
    .noTrigger
  else
    .completed (assembleLog nodes.length
      (List.foldl
        (fun st t => executeNodeChain nodes edges exec (nodes.length + 1) t.id (some .null) st)
        initState (nodes.filter (fun n => !(edges.any (fun e => e.target == n.id))))))

/-- `MAX_EXECUTION_HISTORY` from src/lib/execution-history.ts. -/
def MAX_EXECUTION_HISTORY : Nat := 50

/-- `saveExecutionLog` (src/lib/execution-history.ts): prepend the new
record, then truncate the list past the capacity (`splice(MAX)` removes
everything from index MAX on).  The localStorage round-trip is the
persistence collaborator and outside the model. -/
def saveExecutionLog (log : ExecutionLog) (history : List ExecutionLog) : List ExecutionLog :=
  let h := log :: history
  if MAX_EXECUTION_HISTORY < h.length then h.take MAX_EXECUTION_HISTORY else h

/-- Claim-side branch selection, written from the claim's words: follow
exactly the edges whose tag equals the branch value; else exactly the
`"default"`-tagged edges; else exactly the edges carrying no tag at all. -/
def claimBranchFollow (b : JsValue) (connected : List EdgeE) (e : EdgeE) : Bool :=
  if connected.any (edgeTagEq b) then edgeTagEq b e
  else if connected.any (fun e2 => e2.branch == some "default") then e.branch == some "default"
  else e.branch == none

/-- The amended branch selection: as the claim, except that the third tier
follows the edges whose tag is absent or empty (the code tests JavaScript
falsiness of the tag, not absence). -/
def amendedBranchFollow (b : JsValue) (connected : List EdgeE) (e : EdgeE) : Bool :=
  if connected.any (edgeTagEq b) then edgeTagEq b e
  else if connected.any (fun e2 => e2.branch == some "default") then e.branch == some "default"
  else edgeTagFalsy e

/-- A dispatch result is well formed when a failure always carries an
error message. -/
def failureHasMessage (r : NodeExecutionResult) : Prop :=
  r.success = false → ∃ m, r.error = some m

/-- A collaborator environment whose every call fails; used to instantiate
universally quantified theorems at concrete inputs. -/
def stubEnv : Env :=
  { now := "2024-01-01T00:00:00.000Z"
    aiExec := fun _ _ _ _ => Except.error "stub"
    httpProxy := fun _ _ _ _ => Except.error "stub"
    evalFun := fun _ _ _ => Except.error "stub" }

/-- An executor that always succeeds with a `null` output; used to
instantiate universally quantified theorems at concrete inputs. -/
def constExec : ExecFn := fun _ =>
  { success := true, output := some .null, error := none }

/-- An executor that always fails; used to instantiate universally
quantified theorems at concrete inputs. -/
def failExec : ExecFn := fun _ =>
  { success := false, output := none, error := some "boom" }

/-- The invariant the traversal maintains over `RunState`: the recorded
per-node entries correspond one-to-one and in order with the visited set,
the visited set has no duplicates, and the error flag is set exactly when
some recorded entry failed. -/
def InvAll (st : RunState) : Prop :=
  st.results.map (fun e => e.nodeId) = st.executed ∧
  st.executed.Nodup ∧
  (st.hasError = true ↔ ∃ e ∈ st.results, e.status = NodeStatus.error)

/-- The action sub-types `executeActionNode` dispatches to. -/
def isKnownActionType (config : Config) : Bool :=
  match jsLookup config "type" with
  | some (.str "httpRequest") => true
  | some (.str "dataTransform") => true
  | some (.str "sendEmail") => true
  | _ => false

/-- The logic sub-types `executeLogicNode` dispatches to. -/
def isKnownLogicType (config : Config) : Bool :=
  match jsLookup config "type" with
  | some (.str "ifElse") => true
  | some (.str "switch") => true
  | some (.str "delay") => true
  | _ => false

/-- A filtered list is empty exactly when no element passes the filter. -/
theorem filter_isEmpty_eq_not_any {α : Type} (p : α → Bool) (l : List α) :
    (l.filter p).isEmpty = !l.any p := by
  induction l with
  | nil => rfl
  | cons x xs ih =>
    by_cases h : p x <;> simp [List.filter_cons, h, ih]

/-- A fold over run states preserves any property each step preserves. -/
theorem foldl_preserves {α : Type} (P : RunState → Prop) (f : RunState → α → RunState)
    (h : ∀ st a, P st → P (f st a)) :
    ∀ (l : List α) (st : RunState), P st → P (List.foldl f st l) := by
  intro l
  induction l with
  | nil => intro st hst; simpa using hst
  | cons x xs ih => intro st hst; simpa using ih (f st x) (h st x hst)

/-- Appending a non-error entry does not change whether some entry
errored. -/
theorem exists_error_append_success {l : List ExecutionNodeResult}
    {entry : ExecutionNodeResult} (h : entry.status ≠ NodeStatus.error) :
    (∃ e ∈ l ++ [entry], e.status = NodeStatus.error) ↔
      (∃ e ∈ l, e.status = NodeStatus.error) := by
  constructor
  · rintro ⟨e, he, hs⟩
    rcases List.mem_append.mp he with h3 | h3
    · exact ⟨e, h3, hs⟩
    · rw [List.mem_singleton.mp h3] at hs
      exact absurd hs h
  · rintro ⟨e, he, hs⟩
    exact ⟨e, List.mem_append_left _ he, hs⟩

/-- One chain call preserves the run-state invariant, for any executor. -/
theorem chain_preserves_InvAll (nodes : List NodeRec) (edges : List EdgeE) (exec : ExecFn) :
    ∀ (fuel : Nat) (nodeId : String) (input : Option JsValue) (st : RunState),
      InvAll st → InvAll (executeNodeChain nodes edges exec fuel nodeId input st) := by
  intro fuel
  induction fuel with
  | zero => intro nodeId input st hst; simpa [executeNodeChain] using hst
  | succ fuel ih =>
    intro nodeId input st hst
    by_cases hmem : nodeId ∈ st.executed
    · simpa [executeNodeChain, hmem] using hst
    · have hc : st.executed.contains nodeId = false := by
        simpa using hmem
      cases hfind : nodes.find? (fun n => n.id == nodeId) with
      | none => simpa [executeNodeChain, hmem, hfind] using hst
      | some node =>
        have hnid : node.id = nodeId := by
          have h1 := List.find?_some hfind
          simpa using h1
        have hnotmem : nodeId ∉ st.executed := hmem
        have hmap1 : ∀ (entry : ExecutionNodeResult), entry.nodeId = nodeId →
            (st.results ++ [entry]).map (fun e => e.nodeId) = st.executed ++ [nodeId] := by
          intro entry he
          simp [List.map_append, hst.1, he]
        have hnodup : (st.executed ++ [nodeId]).Nodup := by
          simp [List.nodup_append, hst.2.1, hnotmem]
        by_cases hsucc :
            (exec { nodeId := node.id, input := input, config := node.config
                    previousNodes := st.outputs }).success
        · simp only [executeNodeChain, hc, Bool.false_eq_true, if_false, hfind, hsucc, if_true]
          apply foldl_preserves InvAll _ (fun s e hs => ih e.target _ s hs)
          refine ⟨?_, ?_, ?_⟩
          · exact hmap1 _ hnid
          · exact hnodup
          · simp only []
            rw [exists_error_append_success (by simp)]
            exact hst.2.2
        · simp only [executeNodeChain, hc, Bool.false_eq_true, if_false, hfind, hsucc, if_true]
          refine ⟨?_, ?_, ?_⟩
          · exact hmap1 _ hnid
          · exact hnodup
          · constructor
            · intro _
              exact ⟨_, List.mem_append_right _ (List.mem_singleton_self _), rfl⟩
            · intro _; rfl

/-- C5: resolving the token `\x7b\x7bnodeA.items.0.name\x7d\x7d` against
`previousOutputs = \x7bnodeA: \x7bitems: [\x7bname: "x"\x7d]\x7d\x7d`
yields `"x"`, and against empty previous outputs the literal token text is
returned unchanged, for any node input. -/
theorem template_round_trip :
    (∀ input : Option JsValue,
      replaceTemplateVariables (some (.str "\x7b\x7bnodeA.items.0.name\x7d\x7d"))
        ⟨input, [("nodeA", some (.obj [("items", .arr [.obj [("name", .str "x")]])]))]⟩ = "x") ∧
    (∀ input : Option JsValue,
      replaceTemplateVariables (some (.str "\x7b\x7bnodeA.items.0.name\x7d\x7d"))
        ⟨input, []⟩ = "\x7b\x7bnodeA.items.0.name\x7d\x7d") :=
  ⟨fun _ => rfl, fun _ => rfl⟩

/-- C6: the switch case list is parsed from newline-separated config text
trimmed, in order and de-duplicated; with cases `["A","B"]` a property
value `"B"` routes to branch `"case_1"` and an unmatched value `"C"`
routes to branch `"default"`. -/
theorem switch_routing_cases :
    parseSwitchCases [("cases", .str "  A \nB\n\nA ")] = ["A", "B"] ∧
    branchField (executeSwitch [("type", .str "switch"), ("cases", .str "A\nB")]
      ⟨"s1", some (.str "B"), [("type", .str "switch"), ("cases", .str "A\nB")], []⟩).output =
      some (.str "case_1") ∧
    branchField (executeSwitch [("type", .str "switch"), ("cases", .str "A\nB")]
      ⟨"s1", some (.str "C"), [("type", .str "switch"), ("cases", .str "A\nB")], []⟩).output =
      some (.str "default") :=
  ⟨rfl, rfl, rfl⟩

/-- C9: starting from any history within the cap, saving a run record
prepends it, the result never exceeds the cap, and it agrees with the
prepended list on every index it has (only the oldest entries are
evicted). -/
theorem execution_history_capacity (log : ExecutionLog) (history : List ExecutionLog)
    (h : history.length ≤ MAX_EXECUTION_HISTORY) :
    (saveExecutionLog log history).length ≤ MAX_EXECUTION_HISTORY ∧
    (saveExecutionLog log history).head? = some log ∧
    (∀ i, i < (saveExecutionLog log history).length →
      (saveExecutionLog log history)[i]? = (log :: history)[i]?) := by
  unfold saveExecutionLog
  by_cases hlen : MAX_EXECUTION_HISTORY < (log :: history).length
  · simp only [hlen, if_true]
    refine ⟨by simp, ?_, ?_⟩
    · show ((log :: history).take MAX_EXECUTION_HISTORY).head? = some log
      rw [show MAX_EXECUTION_HISTORY = 49 + 1 from rfl, List.take_succ_cons]
      rfl
    · intro i hi
      have hi2 : i < MAX_EXECUTION_HISTORY := by
        have h2 : ((log :: history).take MAX_EXECUTION_HISTORY).length ≤ MAX_EXECUTION_HISTORY := by
          simp
        omega
      simp [List.getElem?_take, hi2]
  · simp only [hlen, if_false]
    have h2 : (log :: history).length ≤ MAX_EXECUTION_HISTORY := by omega
    exact ⟨h2, by trivial, fun i _ => trivial⟩

/-- Witness for C9 at a concrete record and the empty history. -/
theorem execution_history_capacity_witness :
    (saveExecutionLog ⟨.success, 0, 0, [], none⟩ []).length ≤ MAX_EXECUTION_HISTORY ∧
    (saveExecutionLog ⟨.success, 0, 0, [], none⟩ []).head? = some ⟨.success, 0, 0, [], none⟩ ∧
    (∀ i, i < (saveExecutionLog ⟨.success, 0, 0, [], none⟩ []).length →
      (saveExecutionLog ⟨.success, 0, 0, [], none⟩ [])[i]? =
        ([⟨.success, 0, 0, [], none⟩] : List ExecutionLog)[i]?) :=
  execution_history_capacity ⟨.success, 0, 0, [], none⟩ [] (by simp)

/-- C10: a template token with a non-empty path (`input.<path>` or
`<nodeId>.<path>`) whose path evaluation succeeds with the value `null` is
left in place as its literal token text, exactly as an unresolved path,
while the bare token `\x7b\x7binput\x7d\x7d` with a `null` input
interpolates as the string `"null"` rather than staying literal. -/
theorem template_null_token_behavior :
    (∀ (ctx : TemplateContext) (t m : String),
        jsTrim t = t → t ≠ "" → t ≠ "input" → isPrefixStr "input." t = true →
        strDrop t 6 ≠ "" →
        resolvePath ctx.input (strDrop t 6) = some .null →
        resolveToken ctx t m = m) ∧
    (∀ (ctx : TemplateContext) (t m nid : String) (rest : List String) (out : JsValue),
        jsTrim t = t → t ≠ "" → t ≠ "input" → isPrefixStr "input." t = false →
        strSplitOn '.' t = nid :: rest → nid ≠ "" → rest ≠ [] →
        jsGetPrev ctx.previousNodes nid = some out →
        resolvePath (some out) (joinDot rest) = some .null →
        resolveToken ctx t m = m) ∧
    (∀ (prev : PrevMap) (m : String),
        resolveToken ⟨some .null, prev⟩ "input" m = "null") := by
  refine ⟨?_, ?_, ?_⟩
  · intro ctx t m htrim hne hni hpre _ hres
    simp [resolveToken, htrim, hne, hni, hpre, hres, renderResolved]
  · intro ctx t m nid rest out htrim hne hni hpre hsplit hnid hrest hprev hres
    obtain ⟨r0, rs, rfl⟩ := List.exists_cons_of_ne_nil hrest
    simp [resolveToken, htrim, hne, hni, hpre, hsplit, hnid, hprev, hres, renderResolved]
  · intro prev m
    rfl

/-- Witness for C10: a null-valued `input.a` path and a null-valued
`n.a` path keep their literal token text, while a bare null input token
renders `"null"`. -/
theorem template_null_token_behavior_witness :
    resolveToken ⟨some (.obj [("a", JsValue.null)]), []⟩ "input.a" "KEEP" = "KEEP" ∧
    resolveToken ⟨none, [("n", some (.obj [("a", JsValue.null)]))]⟩ "n.a" "KEEP" = "KEEP" ∧
    resolveToken ⟨some .null, []⟩ "input" "X" = "null" :=
  ⟨template_null_token_behavior.1 ⟨some (.obj [("a", JsValue.null)]), []⟩ "input.a" "KEEP"
      rfl (by decide) (by decide) rfl (by decide) rfl,
   template_null_token_behavior.2.1 ⟨none, [("n", some (.obj [("a", JsValue.null)]))]⟩
      "n.a" "KEEP" "n" ["a"] (.obj [("a", JsValue.null)])
      rfl (by decide) (by decide) rfl rfl (by decide) (by decide) rfl rfl,
   template_null_token_behavior.2.2 [] "X"⟩

/-- C8 (counterexample): the trigger handler's output is chosen by
JavaScript truthiness, not presence.  The input `false` is present, yet
the handler returns the synthesized `\x7btriggeredAt, config\x7d` payload
instead of passing the input through. -/
theorem trigger_passthrough_claim_counterexample :
    (executeTriggerNode stubEnv ⟨"t1", some (.bool false), [], []⟩).output =
      some (.obj [("triggeredAt", .str "2024-01-01T00:00:00.000Z"), ("config", .obj [])]) ∧
    (executeTriggerNode stubEnv ⟨"t1", some (.bool false), [], []⟩).output ≠
      some (.bool false) :=
  ⟨rfl, fun h => by
    rw [show (executeTriggerNode stubEnv ⟨"t1", some (.bool false), [], []⟩).output =
        some (.obj [("triggeredAt", .str "2024-01-01T00:00:00.000Z"), ("config", .obj [])])
      from rfl] at h
    exact JsValue.noConfusion (Option.some.inj h)⟩

/-- C8 (amended): the trigger handler always succeeds; its output is the
supplied input when the input is truthy, and the synthesized
`\x7btriggeredAt: now, config\x7d` payload when the input is absent, null
or otherwise falsy. -/
theorem trigger_passthrough_amended (env : Env) (ctx : NodeExecutionContext) :
    (executeTriggerNode env ctx).success = true ∧
    (jsTruthyOpt ctx.input = true → (executeTriggerNode env ctx).output = ctx.input) ∧
    (jsTruthyOpt ctx.input = false →
      (executeTriggerNode env ctx).output =
        some (.obj [("triggeredAt", .str env.now), ("config", .obj ctx.config)])) := by
  refine ⟨rfl, ?_, ?_⟩ <;> intro h <;> simp [executeTriggerNode, h]

/-- Witness for C8 (amended) at a truthy and at a null input. -/
theorem trigger_passthrough_amended_witness :
    (executeTriggerNode stubEnv ⟨"t1", some (.str "go"), [], []⟩).output = some (.str "go") ∧
    (executeTriggerNode stubEnv ⟨"t1", some .null, [], []⟩).output =
      some (.obj [("triggeredAt", .str "2024-01-01T00:00:00.000Z"), ("config", .obj [])]) :=
  ⟨(trigger_passthrough_amended stubEnv ⟨"t1", some (.str "go"), [], []⟩).2.1 rfl,
   (trigger_passthrough_amended stubEnv ⟨"t1", some .null, [], []⟩).2.2 rfl⟩

/-- C1 (counterexample): an output that carries the branch value `""` is
treated by the code as carrying no branch at all (JavaScript truthiness),
so every outgoing edge is traversed; the claim's precedence would follow
exactly the `"default"`-tagged edge. -/
theorem branch_selection_claim_counterexample :
    branchField (some (.obj [("branch", .str "")])) = some (.str "") ∧
    claimBranchFollow (.str "")
      [⟨"e1", "n0", "n1", some "default"⟩, ⟨"e2", "n0", "n2", none⟩]
      ⟨"e1", "n0", "n1", some "default"⟩ = true ∧
    claimBranchFollow (.str "")
      [⟨"e1", "n0", "n1", some "default"⟩, ⟨"e2", "n0", "n2", none⟩]
      ⟨"e2", "n0", "n2", none⟩ = false ∧
    edgesToTraverse (some (.obj [("branch", .str "")]))
      [⟨"e1", "n0", "n1", some "default"⟩, ⟨"e2", "n0", "n2", none⟩] =
      [⟨"e1", "n0", "n1", some "default"⟩, ⟨"e2", "n0", "n2", none⟩] ∧
    edgesToTraverse (some (.obj [("branch", .str "")]))
      [⟨"e1", "n0", "n1", some "default"⟩, ⟨"e2", "n0", "n2", none⟩] ≠
      [⟨"e1", "n0", "n1", some "default"⟩] :=
  ⟨rfl, rfl, rfl, rfl, by decide⟩

/-- C1 (amended): when a successful node's output carries a truthy
`branch` value, an outgoing edge is traversed exactly when the amended
precedence selects it (matching tags first, then `"default"` tags, then
edges with an absent or empty tag); when the output has no `branch` field
or a falsy one, every outgoing edge is traversed. -/
theorem branch_selection_amended :
    (∀ (output : Option JsValue) (connected : List EdgeE) (b : JsValue),
        branchField output = some b → jsTruthy b = true →
        ∀ e : EdgeE, e ∈ edgesToTraverse output connected ↔
          e ∈ connected ∧ amendedBranchFollow b connected e = true) ∧
    (∀ (output : Option JsValue) (connected : List EdgeE),
        branchTruthy output = false → edgesToTraverse output connected = connected) := by
  constructor
  · intro output connected b hb ht e
    cases connected with
    | nil => simp [edgesToTraverse, hb]
    | cons c0 cs =>
      simp only [edgesToTraverse, hb, ht, List.isEmpty_cons, Bool.not_false, Bool.true_and,
        if_true]
      by_cases h1 : (c0 :: cs).any (edgeTagEq b)
      · rw [if_pos (by simp [filter_isEmpty_eq_not_any, h1])]
        simp [List.mem_filter, amendedBranchFollow, h1]
      · rw [if_neg (by simp [filter_isEmpty_eq_not_any, h1])]
        by_cases h2 : (c0 :: cs).any (fun e2 => e2.branch == some "default")
        · rw [if_pos (by simp [filter_isEmpty_eq_not_any, h2])]
          simp [List.mem_filter, amendedBranchFollow, h1, h2]
        · rw [if_neg (by simp [filter_isEmpty_eq_not_any, h2])]
          simp [List.mem_filter, amendedBranchFollow, h1, h2]
  · intro output connected h
    cases hb : branchField output with
    | none => simp [edgesToTraverse, hb]
    | some b =>
      have hbt : jsTruthy b = false := by
        rw [branchTruthy, hb] at h
        exact h
      simp [edgesToTraverse, hb, hbt]

/-- Witness for C1 (amended): a `"true"` branch output selects exactly the
matching edge among a matching and an untagged edge, and an output without
a branch field keeps both edges. -/
theorem branch_selection_amended_witness :
    ((⟨"e1", "n0", "n1", some "true"⟩ : EdgeE) ∈
        edgesToTraverse (some (.obj [("branch", .str "true")]))
          [⟨"e1", "n0", "n1", some "true"⟩, ⟨"e2", "n0", "n2", none⟩] ↔
      (⟨"e1", "n0", "n1", some "true"⟩ : EdgeE) ∈
          [(⟨"e1", "n0", "n1", some "true"⟩ : EdgeE), ⟨"e2", "n0", "n2", none⟩] ∧
        amendedBranchFollow (.str "true")
          [⟨"e1", "n0", "n1", some "true"⟩, ⟨"e2", "n0", "n2", none⟩]
          ⟨"e1", "n0", "n1", some "true"⟩ = true) ∧
    edgesToTraverse (some (.obj [("ok", .bool true)]))
      [⟨"e1", "n0", "n1", some "true"⟩, ⟨"e2", "n0", "n2", none⟩] =
      [⟨"e1", "n0", "n1", some "true"⟩, ⟨"e2", "n0", "n2", none⟩] :=
  ⟨branch_selection_amended.1 (some (.obj [("branch", .str "true")]))
      [⟨"e1", "n0", "n1", some "true"⟩, ⟨"e2", "n0", "n2", none⟩] (.str "true") rfl rfl
      ⟨"e1", "n0", "n1", some "true"⟩,
   branch_selection_amended.2 (some (.obj [("ok", .bool true)]))
      [⟨"e1", "n0", "n1", some "true"⟩, ⟨"e2", "n0", "n2", none⟩] rfl⟩

/-- C4 (counterexample): the empty graph has zero entry nodes, yet the run
fails fast with the add-nodes condition (`"Add some nodes to the canvas
first!"`), not the no-trigger condition; no run record is produced in
either case. -/
theorem no_trigger_claim_counterexample :
    executeWorkflow [] [] constExec = RunOutcome.noNodes ∧
    RunOutcome.noNodes ≠ RunOutcome.noTrigger :=
  ⟨rfl, fun h => RunOutcome.noConfusion h⟩

/-- C4 (amended): for every non-empty graph in which every node has an
incoming edge (zero entry nodes), the run fails fast with the no-trigger
condition: no node is dispatched and no run record is produced or
persisted (the outcome is `noTrigger`, not `completed`). -/
theorem no_trigger_fails_fast_amended (nodes : List NodeRec) (edges : List EdgeE)
    (exec : ExecFn) (hne : nodes ≠ [])
    (hcov : ∀ n ∈ nodes, edges.any (fun e => e.target == n.id) = true) :
    executeWorkflow nodes edges exec = RunOutcome.noTrigger := by
  unfold executeWorkflow
  have hni : nodes.isEmpty = false := by
    cases nodes with
    | nil => exact absurd rfl hne
    | cons a l => rfl
  have hfe : nodes.filter (fun n => !(edges.any (fun e => e.target == n.id))) = [] := by
    rw [List.filter_eq_nil_iff]
    intro n hn
    simp [hcov n hn]
  simp [hni, hfe]

/-- Witness for C4 (amended): a one-node graph whose only node carries a
self-loop has no entry node and yields the no-trigger outcome. -/
theorem no_trigger_fails_fast_amended_witness :
    executeWorkflow [⟨"a", "A", []⟩] [⟨"e", "a", "a", none⟩] constExec =
      RunOutcome.noTrigger :=
  no_trigger_fails_fast_amended [⟨"a", "A", []⟩] [⟨"e", "a", "a", none⟩] constExec
    (by intro h; exact List.noConfusion h)
    (by intro n hn; rw [List.mem_singleton.mp hn]; rfl)

/-- Trigger results always carry a message on failure (they never fail). -/
theorem wf_result_trigger (env : Env) (ctx : NodeExecutionContext) :
    failureHasMessage (executeTriggerNode env ctx) := by
  intro h
  simp [executeTriggerNode] at h

/-- AI results always carry a message on failure. -/
theorem wf_result_ai (env : Env) (ctx : NodeExecutionContext) :
    failureHasMessage (executeAINodeType env ctx) := by
  unfold failureHasMessage executeAINodeType
  split
  · intro h; simp at h
  · intro _; exact ⟨_, rfl⟩

/-- HTTP-request results always carry a message on failure. -/
theorem wf_result_http (env : Env) (ctx : NodeExecutionContext) :
    failureHasMessage (executeHttpRequest env ctx) := by
  unfold failureHasMessage executeHttpRequest
  simp only []
  split
  · intro _; exact ⟨_, rfl⟩
  · split
    · intro h; simp at h
    · intro _; exact ⟨_, rfl⟩

/-- Data-transform results always carry a message on failure. -/
theorem wf_result_transform (env : Env) (ctx : NodeExecutionContext) :
    failureHasMessage (executeDataTransform env ctx) := by
  unfold failureHasMessage executeDataTransform
  split
  · intro h; simp at h
  · intro _; exact ⟨_, rfl⟩

/-- Send-email results always carry a message on failure (they never
fail). -/
theorem wf_result_email (env : Env) (ctx : NodeExecutionContext) :
    failureHasMessage (executeSendEmail env ctx) := by
  intro h
  simp [executeSendEmail] at h

/-- If-else results always carry a message on failure. -/
theorem wf_result_ifelse (env : Env) (ctx : NodeExecutionContext) :
    failureHasMessage (executeIfElse env ctx) := by
  unfold failureHasMessage executeIfElse
  simp only []
  split
  · split
    · intro h; simp at h
    · intro _; exact ⟨_, rfl⟩
  · intro h; simp at h

/-- Switch results always carry a message on failure (they never fail). -/
theorem wf_result_switch (config : Config) (ctx : NodeExecutionContext) :
    failureHasMessage (executeSwitch config ctx) := by
  intro h
  simp [executeSwitch] at h

/-- Delay results always carry a message on failure (they never fail). -/
theorem wf_result_delay (ctx : NodeExecutionContext) :
    failureHasMessage (executeDelay ctx) := by
  intro h
  simp [executeDelay] at h

/-- Action results always carry a message on failure. -/
theorem wf_result_action (env : Env) (ctx : NodeExecutionContext) :
    failureHasMessage (executeActionNode env ctx) := by
  unfold executeActionNode
  split
  · exact wf_result_http env ctx
  · exact wf_result_transform env ctx
  · exact wf_result_email env ctx
  · intro _; exact ⟨_, rfl⟩

/-- Logic results always carry a message on failure. -/
theorem wf_result_logic (env : Env) (ctx : NodeExecutionContext) :
    failureHasMessage (executeLogicNode env ctx) := by
  unfold executeLogicNode
  split
  · exact wf_result_ifelse env ctx
  · exact wf_result_switch ctx.config ctx
  · exact wf_result_delay ctx
  · intro _; exact ⟨_, rfl⟩

/-- C7: `executeNode` is a total function into `NodeExecutionResult` and
every failure carries a message (handler exceptions, modelled as failing
collaborators, are caught and converted); a registry miss yields `"Unknown
node type: <type>"`, an unknown sub-type within the action or logic
category yields the typed `"Unknown <category> node type: <type>"`
failure, and a collaborator error surfaces as `\x7bsuccess: false,
error\x7d` with its message. -/
theorem execute_node_never_raises (reg : Registry) (env : Env) (ctx : NodeExecutionContext) :
    failureHasMessage (executeNode reg env ctx) ∧
    (reg (configTypeStr ctx.config) = none →
      executeNode reg env ctx =
        { success := false, output := none
          error := some ("Unknown node type: " ++ configTypeStr ctx.config) }) ∧
    (reg (configTypeStr ctx.config) = some .action → isKnownActionType ctx.config = false →
      executeNode reg env ctx =
        { success := false, output := none
          error := some ("Unknown action node type: " ++ configTypeStr ctx.config) }) ∧
    (reg (configTypeStr ctx.config) = some .logic → isKnownLogicType ctx.config = false →
      executeNode reg env ctx =
        { success := false, output := none
          error := some ("Unknown logic node type: " ++ configTypeStr ctx.config) }) ∧
    (∀ m, reg (configTypeStr ctx.config) = some .ai →
      env.aiExec (jsLookup ctx.config "type") ctx.config ctx.input ctx.previousNodes =
        Except.error m →
      executeNode reg env ctx = { success := false, output := none, error := some m }) ∧
    (∀ m, reg (configTypeStr ctx.config) = some .action →
      jsLookup ctx.config "type" = some (.str "dataTransform") →
      env.evalFun (jsStringCoerceOpt (jsLookup ctx.config "code")) ctx.input ctx.previousNodes =
        Except.error m →
      executeNode reg env ctx = { success := false, output := none, error := some m }) := by
  refine ⟨?_, ?_, ?_, ?_, ?_, ?_⟩
  · unfold executeNode
    split
    · intro _; exact ⟨_, rfl⟩
    · exact wf_result_trigger env ctx
    · exact wf_result_ai env ctx
    · exact wf_result_action env ctx
    · exact wf_result_logic env ctx
  · intro h
    simp [executeNode, h]
  · intro h1 h2
    rw [show executeNode reg env ctx = executeActionNode env ctx from by simp [executeNode, h1]]
    unfold executeActionNode
    split <;> first
      | rfl
      | (rename_i heq; simp [isKnownActionType, heq] at h2)
  · intro h1 h2
    rw [show executeNode reg env ctx = executeLogicNode env ctx from by simp [executeNode, h1]]
    unfold executeLogicNode
    split <;> first
      | rfl
      | (rename_i heq; simp [isKnownLogicType, heq] at h2)
  · intro m h1 h2
    simp [executeNode, h1, executeAINodeType, h2]
  · intro m h1 h2 h3
    simp [executeNode, h1, executeActionNode, h2, executeDataTransform, h3]

/-- Witness for C7: a registry miss, an unknown action sub-type, an
unknown logic sub-type, and failing AI / code collaborators all produce
typed failures with messages. -/
theorem execute_node_never_raises_witness :
    (∃ m, (executeNode (fun _ => none) stubEnv ⟨"n", none, [], []⟩).error = some m) ∧
    executeNode (fun _ => none) stubEnv ⟨"n", none, [], []⟩ =
      { success := false, output := none, error := some "Unknown node type: undefined" } ∧
    executeNode (fun _ => some .action) stubEnv ⟨"n", none, [("type", .str "mystery")], []⟩ =
      { success := false, output := none, error := some "Unknown action node type: mystery" } ∧
    executeNode (fun _ => some .logic) stubEnv ⟨"n", none, [("type", .str "mystery")], []⟩ =
      { success := false, output := none, error := some "Unknown logic node type: mystery" } ∧
    executeNode (fun _ => some .ai) stubEnv ⟨"n", none, [], []⟩ =
      { success := false, output := none, error := some "stub" } ∧
    executeNode (fun _ => some .action) stubEnv
        ⟨"n", none, [("type", .str "dataTransform")], []⟩ =
      { success := false, output := none, error := some "stub" } :=
  ⟨(execute_node_never_raises (fun _ => none) stubEnv ⟨"n", none, [], []⟩).1 rfl,
   (execute_node_never_raises (fun _ => none) stubEnv ⟨"n", none, [], []⟩).2.1 rfl,
   (execute_node_never_raises (fun _ => some .action) stubEnv
      ⟨"n", none, [("type", .str "mystery")], []⟩).2.2.1 rfl rfl,
   (execute_node_never_raises (fun _ => some .logic) stubEnv
      ⟨"n", none, [("type", .str "mystery")], []⟩).2.2.2.1 rfl rfl,
   (execute_node_never_raises (fun _ => some .ai) stubEnv
      ⟨"n", none, [], []⟩).2.2.2.2.1 "stub" rfl rfl,
   (execute_node_never_raises (fun _ => some .action) stubEnv
      ⟨"n", none, [("type", .str "dataTransform")], []⟩).2.2.2.2.2 "stub" rfl rfl rfl⟩

/-- Every completed run's record is assembled from a final state that
satisfies the run-state invariant. -/
theorem workflow_completed_final (nodes : List NodeRec) (edges : List EdgeE) (exec : ExecFn)
    (log : ExecutionLog) (h : executeWorkflow nodes edges exec = RunOutcome.completed log) :
    ∃ final : RunState, InvAll final ∧ log = assembleLog nodes.length final := by
  unfold executeWorkflow at h
  split at h
  · exact RunOutcome.noConfusion h
  · split at h
    · exact RunOutcome.noConfusion h
    · refine ⟨_, ?_, (RunOutcome.completed.inj h).symm⟩
      exact foldl_preserves InvAll _
        (fun st t hst => chain_preserves_InvAll nodes edges exec _ t.id (some .null) st hst)
        _ initState ⟨rfl, List.nodup_nil, by simp [initState]⟩

/-- C2: in every completed run each node id appears at most once in the
recorded per-node result sequence (so each node is dispatched at most
once, even in diamond graphs or with several trigger points reaching the
same node), and a chain call on an already-visited node returns the state
unchanged without executing anything. -/
theorem run_nodes_at_most_once :
    (∀ (nodes : List NodeRec) (edges : List EdgeE) (exec : ExecFn) (log : ExecutionLog),
        executeWorkflow nodes edges exec = RunOutcome.completed log →
        (log.results.map (fun e => e.nodeId)).Nodup) ∧
    (∀ (nodes : List NodeRec) (edges : List EdgeE) (exec : ExecFn) (fuel : Nat)
        (nodeId : String) (input : Option JsValue) (st : RunState),
        nodeId ∈ st.executed →
        executeNodeChain nodes edges exec fuel nodeId input st = st) := by
  constructor
  · intro nodes edges exec log h
    obtain ⟨final, ⟨hmap, hnodup, -⟩, rfl⟩ := workflow_completed_final nodes edges exec log h
    show ((final.results).map (fun e => e.nodeId)).Nodup
    rw [hmap]
    exact hnodup
  · intro nodes edges exec fuel nodeId input st hmem
    cases fuel with
    | zero => rfl
    | succ fuel =>
      have hc : st.executed.contains nodeId = true := by simpa using hmem
      simp [executeNodeChain, hc, hmem]

/-- Witness for C2: a two-trigger graph converging on one node records it
once, and a chain call into a visited node is a no-op. -/
theorem run_nodes_at_most_once_witness :
    ((((match executeWorkflow
          [⟨"a", "A", []⟩, ⟨"b", "B", []⟩, ⟨"c", "C", []⟩]
          [⟨"e1", "a", "c", none⟩, ⟨"e2", "b", "c", none⟩] constExec with
        | RunOutcome.completed log => log.results
        | _ => []) : List ExecutionNodeResult).map (fun e => e.nodeId)).Nodup) ∧
    executeNodeChain [⟨"a", "A", []⟩] [] constExec 5 "a" none
        { executed := ["a"], outputs := [], results := [], hasError := false
          errorMessage := "" } =
      { executed := ["a"], outputs := [], results := [], hasError := false
        errorMessage := "" } :=
  ⟨run_nodes_at_most_once.1
      [⟨"a", "A", []⟩, ⟨"b", "B", []⟩, ⟨"c", "C", []⟩]
      [⟨"e1", "a", "c", none⟩, ⟨"e2", "b", "c", none⟩] constExec _ rfl,
   run_nodes_at_most_once.2 [⟨"a", "A", []⟩] [] constExec 5 "a" none
      { executed := ["a"], outputs := [], results := [], hasError := false
        errorMessage := "" }
      (List.mem_singleton_self "a")⟩

/-- C3: a failing dispatch records the error and returns at once with the
failure flagged — none of the node's outgoing edges are traversed and no
descendant is executed by that call, while the surrounding fold continues
with the remaining pending branches; every completed run is recorded, with
overall status `error` exactly when some recorded node entry failed and
`success` otherwise. -/
theorem node_failure_locality :
    (∀ (nodes : List NodeRec) (edges : List EdgeE) (exec : ExecFn) (fuel : Nat)
        (nodeId : String) (input : Option JsValue) (st : RunState) (node : NodeRec),
        st.executed.contains nodeId = false →
        nodes.find? (fun n => n.id == nodeId) = some node →
        (exec { nodeId := node.id, input := input, config := node.config
                previousNodes := st.outputs }).success = false →
        executeNodeChain nodes edges exec (fuel + 1) nodeId input st =
          { st with
              executed := st.executed ++ [nodeId]
              results := st.results ++
                [{ nodeId := node.id, nodeName := node.label, status := NodeStatus.error
                   output := none
                   error := (exec { nodeId := node.id, input := input, config := node.config
                                    previousNodes := st.outputs }).error }]
              hasError := true
              errorMessage := jsOrStr
                (exec { nodeId := node.id, input := input, config := node.config
                        previousNodes := st.outputs }).error "Unknown error" }) ∧
    (∀ (nodes : List NodeRec) (edges : List EdgeE) (exec : ExecFn) (log : ExecutionLog),
        executeWorkflow nodes edges exec = RunOutcome.completed log →
        (log.status = RunStatus.error ↔ ∃ e ∈ log.results, e.status = NodeStatus.error)) := by
  constructor
  · intro nodes edges exec fuel nodeId input st node hc hfind hfail
    simp only [executeNodeChain, hc, Bool.false_eq_true, if_false, hfind, hfail]
  · intro nodes edges exec log h
    obtain ⟨final, ⟨-, -, hiff⟩, rfl⟩ := workflow_completed_final nodes edges exec log h
    show (if final.hasError then RunStatus.error else RunStatus.success) = RunStatus.error ↔
      ∃ e ∈ final.results, e.status = NodeStatus.error
    cases hfe : final.hasError with
    | true =>
      rw [hfe] at hiff
      exact iff_of_true (by simp) (hiff.mp rfl)
    | false =>
      rw [hfe] at hiff
      exact iff_of_false (by simp) (fun hex => absurd (hiff.mpr hex) (by simp))

/-- Witness for C3: a failing node records its error and its outgoing edge
is not traversed, and a completed one-node failing run has overall status
`error`. -/
theorem node_failure_locality_witness :
    executeNodeChain [⟨"a", "A", []⟩] [⟨"e1", "a", "b", none⟩] failExec 1 "a" none initState =
      { executed := ["a"], outputs := []
        results := [⟨"a", "A", NodeStatus.error, none, some "boom"⟩]
        hasError := true, errorMessage := "boom" } ∧
    (({ status := .error, nodesExecuted := 1, totalNodes := 1
        results := [⟨"a", "A", NodeStatus.error, none, some "boom"⟩]
        errorMessage := some "boom" } : ExecutionLog).status = RunStatus.error ↔
      ∃ e ∈ ({ status := .error, nodesExecuted := 1, totalNodes := 1
               results := [⟨"a", "A", NodeStatus.error, none, some "boom"⟩]
               errorMessage := some "boom" } : ExecutionLog).results,
        e.status = NodeStatus.error) :=
  ⟨node_failure_locality.1 [⟨"a", "A", []⟩] [⟨"e1", "a", "b", none⟩] failExec 0 "a" none
      initState ⟨"a", "A", []⟩ rfl rfl rfl,
   node_failure_locality.2 [⟨"a", "A", []⟩] [] failExec _ rfl⟩
